import Mathlib

/-!
Verification of the gwasy fetch/cache/sort pipeline
(`src/gwasy/fetch_study_index.py`) against its natural-language
specification.

The development is a shallow embedding of the Python source:

* polars cell values become the inductive `Value` (floats are carried as
  exact rationals; the cell produced by `log10` is carried symbolically by
  the `Value.neglog` constructor and interpreted into `ℝ` by
  `Value.toReal`);
* a polars frame becomes `Table`: a schema (column names with dtypes) plus
  rows, a row being an association list from column name to cell
  (lookup takes the first binding, update shadows by prepending);
* the filesystem and the FTP server become explicit `FS` / `Network`
  states threaded through `cache_sumstat`, network activity is counted;
* Python object mutation (`self.df = ...`) becomes explicit state passing:
  a method returns the updated object state;
* Python string helpers used by the source (`str.split`, `str.replace`,
  `str.endswith`) are modelled by `pySplit`, `pyReplace`, `pyEndswith`
  over the character lists of the strings, mirroring CPython semantics
  for the non-empty separators/patterns the source uses.
-/

/-- polars dtypes that occur in the pipeline. -/
inductive DType where
  | string
  | int64
  | float64
  deriving DecidableEq, Repr

/-- A polars cell value.  `rat` is an exact numeric cell; `neglog q`
is the cell computed by `-1 * pl.col(...).log10()` from a cell `q`
(interpreted into `ℝ` by `Value.toReal`); `null` is a missing value. -/
inductive Value where
  | str : String → Value
  | int : Int → Value
  | rat : ℚ → Value
  | neglog : ℚ → Value
  | null : Value
  deriving DecidableEq, Repr

namespace Value

/-- Rank of the constructor, used to linearly order heterogeneous cells.
`null` is ranked smallest: polars sorts with nulls first by default. -/
def rank : Value → ℕ
  | .null => 0
  | .int _ => 1
  | .rat _ => 2
  | .neglog _ => 3
  | .str _ => 4

/-- Numeric component of the sort key. -/
def numKey : Value → ℚ
  | .int n => (n : ℚ)
  | .rat q => q
  | .neglog q => q
  | _ => 0

/-- String component of the sort key. -/
def strKey : Value → String
  | .str s => s
  | _ => ""

/-- Sort key of a cell: constructor rank, then numeric value, then string
value, lexicographically.  Cells of one dtype compare by their payload;
`null` sorts below everything (polars `nulls first` default). -/
def toKey (v : Value) : ℕ ×ₗ ℚ ×ₗ String :=
  toLex (v.rank, toLex (v.numKey, v.strKey))

instance : LinearOrder Value :=
  LinearOrder.lift' toKey (by
    intro a b h
    cases a <;> cases b <;>
      simp [toKey, rank, numKey, strKey, Prod.ext_iff] at h ⊢ <;>
      exact_mod_cast h)

end Value

/-- A table row: association list from column name to cell.  Lookup takes
the first binding; a missing column reads as `null`. -/
def Row : Type := List (String × Value)

instance : DecidableEq Row := by
  unfold Row
  infer_instance

/-- Cell lookup by column name. -/
def Row.cell (r : Row) (name : String) : Value :=
  match r.find? (fun p => p.1 = name) with
  | some p => p.2
  | none => Value.null

/-- Cell update: the new binding shadows any previous one. -/
def Row.updateCell (r : Row) (name : String) (v : Value) : Row :=
  (name, v) :: r

/-- A polars frame: schema (column names and dtypes, in order) and rows. -/
structure Table where
  schema : List (String × DType)
  rows : List Row
  deriving DecidableEq

namespace Table

/-- Column names of the schema, as `LazyFrame.collect_schema().names()`. -/
def names (t : Table) : List String := t.schema.map Prod.fst

/-- Column dtypes of the schema, as `LazyFrame.collect_schema().dtypes()`. -/
def dtypes (t : Table) : List DType := t.schema.map Prod.snd

/-- Models `df.filter(pred)`: keep the rows satisfying the predicate. -/
def filterRows (t : Table) (pred : Row → Bool) : Table :=
  { t with rows := t.rows.filter pred }

/-- Models `df.with_columns(name=expr)`: add the column, or replace it if a column
of that name exists; each new cell is computed from the row.  The dtype of
the new column (inferred by polars) is supplied explicitly. -/
def with_columns (t : Table) (name : String) (dt : DType) (f : Row → Value) : Table :=
  { schema :=
      if t.names.contains name then
        t.schema.map (fun p => if p.1 = name then (name, dt) else p)
      else
        t.schema ++ [(name, dt)],
    rows := t.rows.map (fun r => r.updateCell name (f r)) }

/-- Models `df.select(pl.col(name))`: restrict the schema to the named column.
Rows keep their bindings (lookup is by name, so this is observationally
the projection). -/
def select (t : Table) (name : String) : Table :=
  { schema := t.schema.filter (fun p => p.1 = name), rows := t.rows }

end Table

/-! ### Python string primitives used by the source -/

/-- Boolean prefix test on character lists (CPython's internal startswith). -/
def pyIsPrefixOf : List Char → List Char → Bool
  | [], _ => true
  | _ :: _, [] => false
  | p :: ps, c :: cs => p == c && pyIsPrefixOf ps cs

/-- Models `s.split(sep)` worker for a non-empty separator `p :: ps`: scan left to
right, cut at each non-overlapping occurrence.  `acc` holds the current
chunk reversed. -/
def pySplitAux (p : Char) (ps : List Char) : List Char → List Char → List (List Char)
  | [], acc => [acc.reverse]
  | c :: cs, acc =>
    if pyIsPrefixOf (p :: ps) (c :: cs) then
      acc.reverse :: pySplitAux p ps (cs.drop ps.length) []
    else
      pySplitAux p ps cs (c :: acc)
termination_by s _ => s.length
decreasing_by
  · simp; omega
  · simp

/-- Python `str.split(sep)` for the non-empty separators the source uses
(`"://"` and `"/"`).  (CPython rejects an empty separator; that case is
never exercised and is modelled as the identity split.) -/
def pySplit (s sep : String) : List String :=
  match sep.data with
  | [] => [s]
  | p :: ps => (pySplitAux p ps s.data []).map (fun l => ⟨l⟩)

/-- Models `str.replace(pat, rep)` worker for a non-empty pattern `p :: ps`:
replace each non-overlapping occurrence, left to right, without rescanning
the replacement. -/
def pyReplaceAux (p : Char) (ps rep : List Char) : List Char → List Char
  | [] => []
  | c :: cs =>
    if pyIsPrefixOf (p :: ps) (c :: cs) then
      rep ++ pyReplaceAux p ps rep (cs.drop ps.length)
    else
      c :: pyReplaceAux p ps rep cs
termination_by s => s.length
decreasing_by
  · simp; omega
  · simp

/-- Python `str.replace(pat, rep)` for the non-empty patterns the source
uses (`"https"` and `"http"`). -/
def pyReplace (s pat rep : String) : String :=
  match pat.data with
  | [] => s
  | p :: ps => ⟨pyReplaceAux p ps rep.data s.data⟩

/-- Python `str.endswith`. -/
def pyEndswith (s post : String) : Bool :=
  post.data.isSuffixOf s.data

/-! ### Sorting machinery (`LazyFrame.sort(by=[c₁, c₂])`) -/

/-- Sort key of a row for a two-column sort. -/
def rowKey (c₁ c₂ : String) (r : Row) : Value ×ₗ Value :=
  toLex (r.cell c₁, r.cell c₂)

/-- Row comparison for `df.sort(by=[c₁, c₂])`: lexicographic on the two
named cells, ascending, nulls first (the polars defaults). -/
def rowLe (c₁ c₂ : String) (r₁ r₂ : Row) : Prop :=
  rowKey c₁ c₂ r₁ ≤ rowKey c₁ c₂ r₂

instance (c₁ c₂ : String) : DecidableRel (rowLe c₁ c₂) := fun r₁ r₂ =>
  inferInstanceAs (Decidable (rowKey c₁ c₂ r₁ ≤ rowKey c₁ c₂ r₂))

instance (c₁ c₂ : String) : IsTotal Row (rowLe c₁ c₂) :=
  ⟨fun a b => le_total (rowKey c₁ c₂ a) (rowKey c₁ c₂ b)⟩

instance (c₁ c₂ : String) : IsTrans Row (rowLe c₁ c₂) :=
  ⟨fun _ _ _ hab hbc => le_trans hab hbc⟩

/-- Models `df.sort(by=[pl.col(c₁), pl.col(c₂)])`.  polars does not guarantee a
stable sort, so any sort producing a `rowLe`-sorted permutation is a
faithful model; we use insertion sort. -/
def Table.sortBy2 (t : Table) (c₁ c₂ : String) : Table :=
  { t with rows := t.rows.insertionSort (rowLe c₁ c₂) }

/-! ### The chromosome order map (`Sumstat.sort`, string branch) -/

/-- Models `chromosomes = [str(c) for c in range(1, 23)] + ["X", "Y", "MT"]`. -/
def chromosomes : List String :=
  ((List.range 22).map (fun i => toString (i + 1))) ++ ["X", "Y", "MT"]

/-- Models `order = {c: idx + 1 for idx, c in enumerate(chromosomes)}`, kept as the
ordered list of when/then branches built by `reduce_expression`. -/
def chromOrder : List (String × ℕ) :=
  chromosomes.enum.map (fun p => (p.2, p.1 + 1))

/-- A chained `pl.when(col == c).then(k)...` expression without an
`otherwise`: first matching branch wins, no match yields null. -/
def whenThenChain (branches : List (String × ℕ)) (v : Value) : Value :=
  match branches with
  | [] => Value.null
  | (c, k) :: rest => if v = Value.str c then Value.int k else whenThenChain rest v

/-- Models `map_chromosomes(pl.col("chromosome"))`: the fixed chromosome order map
"1".."22", "X", "Y", "MT" to 1-based ranks, null for unmapped labels. -/
def map_chromosomes (v : Value) : Value :=
  whenThenChain chromOrder v

/-- The cell expression `-1 * pl.col("p_value").log10()`, per cell.
polars' `log10` of a null is null; on a numeric cell the result is the
float `-log10(q)`, carried symbolically as `Value.neglog q`. -/
def Value.log10Neg : Value → Value
  | .rat q => .neglog q
  | .int n => .neglog (n : ℚ)
  | _ => .null

/-- Real-number semantics of a numeric cell (interpretation only; the
program's floats are modelled exactly). -/
noncomputable def Value.toReal : Value → ℝ
  | .int n => (n : ℝ)
  | .rat q => (q : ℝ)
  | .neglog q => -(Real.logb 10 (q : ℝ))
  | _ => 0

/-! ### Python exceptions surfaced by the pipeline -/

/-- Exceptions of the fetch/cache pipeline.  `indexError` models the
`IndexError`/`OutOfBoundsError` raised by `DataFrame.item(0, 0)` on an
empty frame (in Python, `OutOfBoundsError <: IndexError <: LookupError`);
`valueError` models `ValueError("Incorrect uri...")`; `assertionError n`
models the failed `assert len(files) == 1` (carrying `len(files)`), which
aborts the process; `outOfFuel` marks recursion-depth exhaustion of the
fuelled model of the self-recursive `cache_sumstat` and never corresponds
to a Python behaviour once enough fuel is supplied. -/
inductive PyError where
  | indexError
  | valueError
  | assertionError (found : ℕ)
  | outOfFuel
  deriving DecidableEq, Repr

/-- Python exception-class test: which of the modelled exceptions are
instances of `LookupError`. -/
def PyError.isLookupError : PyError → Bool
  | .indexError => true
  | _ => false

/-! ### StudyIndex -/

/-- Models `StudyIndexSchema.ACCESSION_ID.value`. -/
def ACCESSION_ID : String := "STUDY ACCESSION"

/-- Models `StudyIndexSchema.SUMSTAT_LOCATION.value`. -/
def SUMSTAT_LOCATION : String := "SUMMARY STATS LOCATION"

/-- The state of a `StudyIndex` object: its `df` attribute.  Python method
calls that reassign `self.df` are modelled by returning the updated
state. -/
structure StudyIndexState where
  df : Table
  deriving DecidableEq

/-- Models `DataFrame.item(0, 0)`: the element at row 0 of column 0.  polars
raises an out-of-bounds `IndexError` when the frame has no column 0 or no
row 0; with both present it returns the first row's cell and performs no
uniqueness check. -/
def Table.item00 (t : Table) : Except PyError Value :=
  match t.schema with
  | [] => .error .indexError
  | (name, _) :: _ =>
    match t.rows with
    | [] => .error .indexError
    | r :: _ => .ok (r.cell name)

namespace StudyIndex

/-- Models `StudyIndex.find_study`: `self.df = self.df.filter(col(ACCESSION_ID) ==
study); return self`.  The returned state is the object's state after the
call (the object is narrowed in place). -/
def find_study (s : StudyIndexState) (study : String) : StudyIndexState :=
  { df := s.df.filterRows (fun r => decide (r.cell ACCESSION_ID = Value.str study)) }

/-- Models `StudyIndex.find_sumstat`: filter via `find_study` (mutating the
object), select the location column, collect, and `item(0, 0)`.  Returns
the produced value together with the object's state after the call. -/
def find_sumstat (s : StudyIndexState) (study : String) :
    Except PyError Value × StudyIndexState :=
  let s1 := find_study s study
  ((s1.df.select SUMSTAT_LOCATION).item00, s1)

end StudyIndex

/-! ### Filesystem, network, and `cache_sumstat` -/

/-- Local filesystem state: created directories and the parquet cache
files (later bindings shadow earlier ones). -/
structure FS where
  dirs : List String
  files : List (String × Table)
  deriving DecidableEq

/-- Read a cached file. -/
def FS.lookup (fs : FS) (path : String) : Option Table :=
  (fs.files.find? (fun p => p.1 = path)).map Prod.snd

/-- Models `df.write_parquet(path)`. -/
def FS.write (fs : FS) (path : String) (t : Table) : FS :=
  { fs with files := (path, t) :: fs.files }

/-- Models `Path(d).mkdir(exist_ok=True, parents=True)`. -/
def FS.mkdir (fs : FS) (d : String) : FS :=
  if fs.dirs.contains d then fs else { fs with dirs := d :: fs.dirs }

/-- Models `urllib.parse.ParseResult`, restricted to the fields the source
reads (`netloc`, `path`). -/
structure ParseResult where
  scheme : String
  netloc : String
  path : String
  deriving DecidableEq, Repr

/-- The remote FTP server: `nlst netloc cwd` lists a directory;
`fetch netloc cwd file` is the table obtained by `retrbinary` +
`gzip.decompress` + `pl.read_csv(..., separator="\t",
null_values=["NA"])` of the named file (download, decompression and TSV
parsing are deterministic, so they are folded into one map). -/
structure Network where
  nlst : String → String → List String
  fetch : String → String → String → Table

/-- Models `urllib.parse.urlparse`, modelled for authority-form URIs without
query/fragment parts (the only shape the pipeline feeds it): the scheme is
the text before the first `"://"`, the netloc runs to the next `"/"`, the
path is the rest. -/
def urlparse (uri : String) : ParseResult :=
  match pySplit uri "://" with
  | [] => { scheme := "", netloc := "", path := "" }
  | [s] => { scheme := "", netloc := "", path := s }
  | s :: rest =>
    let remainder := String.intercalate "://" rest
    match pySplit remainder "/" with
    | [] => { scheme := s, netloc := "", path := "" }
    | h :: t =>
      { scheme := s, netloc := h,
        path := if t = [] then "" else "/" ++ String.intercalate "/" t }

/-- Models `cache_sumstat(uri, tmp_path, study)`.  The Python function recurses
into itself after writing the cache file; the model adds explicit `fuel`
for that self-recursion (`outOfFuel` when exhausted, which provably cannot
happen from fuel 2 up).  The returned `ℕ` counts network operations
performed (the `nlst` directory listing and the `retrbinary` download);
`assert len(files) == 1` failing becomes `assertionError`. -/
def cache_sumstat (fuel : ℕ) (net : Network) (fs : FS) (uri : ParseResult)
    (tmp_path study : String) : Except PyError (FS × ℕ × Table) :=
  match fuel with
  | 0 => .error .outOfFuel
  | fuel + 1 =>
    let fs := fs.mkdir tmp_path
    let sumstat_path := tmp_path ++ "/" ++ study ++ ".parquet"
    match fs.lookup sumstat_path with
    | some t => .ok (fs, 0, t)
    | none =>
      let dir := uri.path ++ "/harmonised"
      let files := (net.nlst uri.netloc dir).filter (fun f => pyEndswith f ".h.tsv.gz")
      if files.length = 1 then
        let df := net.fetch uri.netloc dir (files.headD "")
        let fs := fs.write sumstat_path df
        match cache_sumstat fuel net fs uri tmp_path study with
        | .ok (fs2, n, t) => .ok (fs2, n + 2, t)
        | .error e => .error e
      else
        .error (.assertionError files.length)

/-! ### Sumstat -/

/-- The state of a `Sumstat` object: the `df`, `columns` and `dtypes`
attributes.  `columns`/`dtypes` are snapshots taken in `__init__`;
transform methods reassign only `df`. -/
structure SumstatState where
  df : Table
  columns : List String
  dtypes : List DType
  deriving DecidableEq

namespace Sumstat

/-- Models `Sumstat.__init__`: store the frame and snapshot its schema names and
dtypes. -/
def init (df : Table) : SumstatState :=
  { df := df, columns := df.names, dtypes := df.dtypes }

/-- Models `Sumstat.neglog_pvalue`: `self.df = self.df.with_columns(neglog_pval =
-1 * pl.col("p_value").log10())`. -/
def neglog_pvalue (s : SumstatState) : SumstatState :=
  { s with df :=
      (s.df.with_columns "neglog_pval" DType.float64
        (fun r => Value.log10Neg (r.cell "p_value"))) }

/-- Models `Sumstat.drop_nullable_variants`: `self.df =
self.df.filter(pl.col("rsid").is_not_null())` (the method also prints the
collected frame, a pure console side effect not modelled). -/
def drop_nullable_variants (s : SumstatState) : SumstatState :=
  { s with df := s.df.filterRows (fun r => decide (r.cell "rsid" ≠ Value.null)) }

/-- First `if` block of `Sumstat.sort`: when `"chromosome" in self.columns`,
either the string branch (add the `order` column from the chromosome order
map, then sort by `(order, position)`) or the numeric branch (sort by
`(chromosome, base_pair_location)`), the dtype test using the
construction-time `self.dtypes[self.columns.index("chromosome")]`. -/
def sortChromosomeBranch (s : SumstatState) : SumstatState :=
  if s.columns.contains "chromosome" then
    if s.dtypes.getD (s.columns.indexOf "chromosome") DType.int64 = DType.string then
      { s with df := (s.df.with_columns "order" DType.int64
          (fun r => map_chromosomes (r.cell "chromosome"))).sortBy2 "order" "position" }
    else
      { s with df := s.df.sortBy2 "chromosome" "base_pair_location" }
  else s

/-- Second `if` block of `Sumstat.sort`: when `"hm_chrom" in self.columns`,
sort by `(hm_chrom, hm_pos)`. -/
def sortHmBranch (s : SumstatState) : SumstatState :=
  if s.columns.contains "hm_chrom" then
    { s with df := s.df.sortBy2 "hm_chrom" "hm_pos" }
  else s

/-- Models `Sumstat.sort`: the two `if` blocks run in sequence. -/
def sort (s : SumstatState) : SumstatState :=
  sortHmBranch (sortChromosomeBranch s)

end Sumstat

/-- The tail of `Sumstat.from_catalog_sumstat` once a supported protocol
has been matched: run `cache_sumstat` on the parsed URI and wrap the
resulting frame in `Sumstat.__init__`. -/
def fetchParsed (fuel : ℕ) (net : Network) (fs : FS) (parsed : ParseResult)
    (path study : String) : Except PyError (FS × ℕ × SumstatState) :=
  match cache_sumstat fuel net fs parsed path study with
  | .ok (fs2, n, t) => .ok (fs2, n, Sumstat.init t)
  | .error e => .error e

/-- Models `Sumstat.from_catalog_sumstat(uri, path)`: split the URI on `"://"`;
on `["http", _]` or `["https", _]` rewrite the whole URI with
`uri.replace("https", "ftp").replace("http", "ftp")`, parse it, and fetch
through the cache; on any other shape raise
`ValueError("Incorrect uri to download summary statistics.")`.
`study = uri.split("/")[-1]` is taken from the original URI. -/
def Sumstat.from_catalog_sumstat (fuel : ℕ) (net : Network) (fs : FS)
    (uri path : String) : Except PyError (FS × ℕ × SumstatState) :=
  let protocol := pySplit uri "://"
  let study := (pySplit uri "/").getLastD ""
  match protocol with
  | ["http", _] | ["https", _] =>
    fetchParsed fuel net fs
      (urlparse (pyReplace (pyReplace uri "https" "ftp") "http" "ftp")) path study
  | _ => .error .valueError

/-- Models `StudyIndex.get_sumstat`: look up the location, then fetch it. -/
def StudyIndex.get_sumstat (fuel : ℕ) (net : Network) (fs : FS)
    (s : StudyIndexState) (study tmp_path : String) :
    Except PyError (FS × ℕ × SumstatState) × StudyIndexState :=
  match StudyIndex.find_sumstat s study with
  | (.ok (Value.str uri), s1) =>
    (Sumstat.from_catalog_sumstat fuel net fs uri tmp_path, s1)
  | (.ok _, s1) => (.error .valueError, s1)
  | (.error e, s1) => (.error e, s1)

/-- The common value of `cache_sumstat` from fuel 2 upward: a cache hit
loads from disk at once; a miss lists, asserts, downloads, writes, and the
re-invocation then loads the just-written file from disk. -/
def cacheTwoResult (net : Network) (fs : FS) (uri : ParseResult)
    (tmp_path study : String) : Except PyError (FS × ℕ × Table) :=
  let fs1 := fs.mkdir tmp_path
  let sumstat_path := tmp_path ++ "/" ++ study ++ ".parquet"
  match fs1.lookup sumstat_path with
  | some t => .ok (fs1, 0, t)
  | none =>
    let dir := uri.path ++ "/harmonised"
    let files := (net.nlst uri.netloc dir).filter (fun f => pyEndswith f ".h.tsv.gz")
    if files.length = 1 then
      .ok (fs1.write sumstat_path (net.fetch uri.netloc dir (files.headD "")), 2,
        net.fetch uri.netloc dir (files.headD ""))
    else
      .error (.assertionError files.length)

/-- 1-based rank of a chromosome label in the fixed order
"1".."22", "X", "Y", "MT". -/
def chromRank (c : String) : ℕ := chromosomes.indexOf c + 1

/-- The chromosome label of a row (its string `chromosome` cell). -/
def chromLabel (r : Row) : String :=
  match r.cell "chromosome" with
  | .str c => c
  | _ => ""

/-- The row order claimed for `sort()`: grouped by chromosome in the fixed
sequence (compared through 1-based ranks) and by ascending position within
a group. -/
def c4Ordered (r₁ r₂ : Row) : Prop :=
  chromRank (chromLabel r₁) < chromRank (chromLabel r₂) ∨
    (chromRank (chromLabel r₁) = chromRank (chromLabel r₂) ∧
      r₁.cell "position" ≤ r₂.cell "position")

instance : DecidableRel c4Ordered := fun r₁ r₂ => by
  unfold c4Ordered
  infer_instance

/-! ### Concrete fixtures used by witnesses and counterexamples -/

/-- A study index holding two distinct studies. -/
def exIndexGood : StudyIndexState :=
  { df := { schema := [(ACCESSION_ID, DType.string), (SUMSTAT_LOCATION, DType.string)],
            rows := [[(ACCESSION_ID, Value.str "GCST001"),
                      (SUMSTAT_LOCATION, Value.str "https://host/path/to/GCST001")],
                     [(ACCESSION_ID, Value.str "GCST002"),
                      (SUMSTAT_LOCATION, Value.str "https://host/path/to/GCST002")]] } }

/-- A study index in which the accession `GCST001` occurs twice with two
different locations. -/
def exIndexDup : StudyIndexState :=
  { df := { schema := [(ACCESSION_ID, DType.string), (SUMSTAT_LOCATION, DType.string)],
            rows := [[(ACCESSION_ID, Value.str "GCST001"),
                      (SUMSTAT_LOCATION, Value.str "L1")],
                     [(ACCESSION_ID, Value.str "GCST001"),
                      (SUMSTAT_LOCATION, Value.str "L2")]] } }

/-- A summary-statistics table with a string chromosome column (labels from
the fixed 25-symbol list, out of order) and no harmonized columns. -/
def exTableChrom : Table :=
  { schema := [("chromosome", DType.string), ("position", DType.int64)],
    rows := [[("chromosome", Value.str "X"), ("position", Value.int 5)],
             [("chromosome", Value.str "2"), ("position", Value.int 9)],
             [("chromosome", Value.str "2"), ("position", Value.int 3)],
             [("chromosome", Value.str "10"), ("position", Value.int 1)]] }

/-- A table carrying both a string chromosome column and the harmonized
pair, with the two orders opposed. -/
def exTableHm : Table :=
  { schema := [("chromosome", DType.string), ("position", DType.int64),
               ("hm_chrom", DType.int64), ("hm_pos", DType.int64)],
    rows := [[("chromosome", Value.str "2"), ("position", Value.int 1),
              ("hm_chrom", Value.int 1), ("hm_pos", Value.int 1)],
             [("chromosome", Value.str "1"), ("position", Value.int 1),
              ("hm_chrom", Value.int 2), ("hm_pos", Value.int 2)]] }

/-- A remote server whose `harmonised` directory lists exactly one
`.h.tsv.gz` file; fetching it parses to `exTableChrom`. -/
def exNet : Network :=
  { nlst := fun _ _ => ["GCST001.h.tsv.gz", "readme.txt"],
    fetch := fun _ _ _ => exTableChrom }

/-- A remote server whose `harmonised` directory lists no `.h.tsv.gz`
file. -/
def exNetEmpty : Network :=
  { nlst := fun _ _ => ["readme.txt"], fetch := fun _ _ _ => exTableChrom }

/-- An empty local filesystem. -/
def exFS : FS := { dirs := [], files := [] }

/-- A filesystem already holding the cache file for study `GCST001` under
cache root `/tmp/catalog/sumstat`. -/
def exFSCached : FS :=
  { dirs := ["/tmp/catalog/sumstat"],
    files := [("/tmp/catalog/sumstat/GCST001.parquet", exTableChrom)] }

/-! ### Helper lemmas -/

theorem Value.le_def {a b : Value} : a ≤ b ↔ a.toKey ≤ b.toKey := Iff.rfl

theorem Value.lt_def {a b : Value} : a < b ↔ a.toKey < b.toKey := Iff.rfl

theorem Value.int_le_int {m n : Int} : (Value.int m ≤ Value.int n) ↔ m ≤ n := by
  simp [Value.le_def, Value.toKey, Prod.Lex.le_iff, Value.rank, Value.numKey, Value.strKey]
  omega

theorem Value.int_lt_int {m n : Int} : (Value.int m < Value.int n) ↔ m < n := by
  simp [Value.lt_def, Value.toKey, Prod.Lex.lt_iff, Value.rank, Value.numKey, Value.strKey]

theorem Row.cell_updateCell_self (r : Row) (name : String) (v : Value) :
    (r.updateCell name v).cell name = v := by
  simp [Row.updateCell, Row.cell, List.find?]

theorem Row.cell_updateCell_ne (r : Row) {name other : String} (v : Value)
    (h : other ≠ name) : (r.updateCell name v).cell other = r.cell other := by
  simp [Row.updateCell, Row.cell, List.find?, Ne.symm h]

theorem pyIsPrefixOf_iff : ∀ {p s : List Char}, pyIsPrefixOf p s = true ↔ p <+: s
  | [], s => by simp [pyIsPrefixOf]
  | _ :: _, [] => by simp [pyIsPrefixOf]
  | p :: ps, c :: cs => by
    simp [pyIsPrefixOf, pyIsPrefixOf_iff, List.cons_prefix_cons, And.comm]

theorem Table.names_with_columns_of_contains (t : Table) (name : String)
    (dt : DType) (f : Row → Value) (h : t.names.contains name = true) :
    (t.with_columns name dt f).names = t.names := by
  simp only [Table.names] at h
  simp only [Table.with_columns, Table.names, h, if_true]
  rw [List.map_map]
  exact List.map_congr_left (fun p _ => by by_cases hp : p.1 = name <;> simp [hp])

theorem Table.names_with_columns_of_not_contains (t : Table) (name : String)
    (dt : DType) (f : Row → Value) (h : t.names.contains name = false) :
    (t.with_columns name dt f).names = t.names ++ [name] := by
  simp only [Table.names] at h
  simp only [Table.with_columns, Table.names, h]
  simp

theorem Table.mem_names_with_columns (t : Table) (name : String)
    (dt : DType) (f : Row → Value) :
    name ∈ (t.with_columns name dt f).names := by
  by_cases h : t.names.contains name = true
  · rw [Table.names_with_columns_of_contains t name dt f h]
    simpa using h
  · rw [Table.names_with_columns_of_not_contains t name dt f (by simpa using h)]
    simp

theorem Sumstat.columns_sortChromosomeBranch (s : SumstatState) :
    (Sumstat.sortChromosomeBranch s).columns = s.columns := by
  unfold Sumstat.sortChromosomeBranch
  split <;> [skip; rfl]
  split <;> rfl

theorem Sumstat.dtypes_sortChromosomeBranch (s : SumstatState) :
    (Sumstat.sortChromosomeBranch s).dtypes = s.dtypes := by
  unfold Sumstat.sortChromosomeBranch
  split <;> [skip; rfl]
  split <;> rfl

theorem Sumstat.columns_sortHmBranch (s : SumstatState) :
    (Sumstat.sortHmBranch s).columns = s.columns := by
  unfold Sumstat.sortHmBranch
  split <;> rfl

theorem Sumstat.dtypes_sortHmBranch (s : SumstatState) :
    (Sumstat.sortHmBranch s).dtypes = s.dtypes := by
  unfold Sumstat.sortHmBranch
  split <;> rfl

/-! ### C10 -/

/-- C10: `Sumstat.columns` and `Sumstat.dtypes` are snapshots taken in
`__init__` from the frame's schema; `drop_nullable_variants`, `sort` and
`neglog_pvalue` reassign only `df` and leave both snapshots unchanged
(hence `sort`'s branch tests always consult the construction-time schema),
while a column added later, such as `neglog_pval`, appears in the frame's
schema but never enters `self.columns`. -/
theorem c10_schema_snapshot_invariant (t : Table) (s : SumstatState) :
    ((Sumstat.init t).columns = t.names ∧ (Sumstat.init t).dtypes = t.dtypes) ∧
    ((Sumstat.drop_nullable_variants s).columns = s.columns ∧
      (Sumstat.drop_nullable_variants s).dtypes = s.dtypes) ∧
    ((Sumstat.sort s).columns = s.columns ∧ (Sumstat.sort s).dtypes = s.dtypes) ∧
    ((Sumstat.neglog_pvalue s).columns = s.columns ∧
      (Sumstat.neglog_pvalue s).dtypes = s.dtypes) ∧
    "neglog_pval" ∈ (Sumstat.neglog_pvalue s).df.names ∧
    ("neglog_pval" ∉ s.columns → "neglog_pval" ∉ (Sumstat.neglog_pvalue s).columns) := by
  refine ⟨⟨rfl, rfl⟩, ⟨rfl, rfl⟩, ⟨?_, ?_⟩, ⟨rfl, rfl⟩, ?_, fun h => h⟩
  · rw [Sumstat.sort, Sumstat.columns_sortHmBranch, Sumstat.columns_sortChromosomeBranch]
  · rw [Sumstat.sort, Sumstat.dtypes_sortHmBranch, Sumstat.dtypes_sortChromosomeBranch]
  · exact Table.mem_names_with_columns _ _ _ _

/-- Witness for C10 at a concrete table: the `neglog_pval` column joins the
frame's schema but not the `columns` snapshot. -/
theorem c10_schema_snapshot_invariant_witness :
    "neglog_pval" ∈ (Sumstat.neglog_pvalue (Sumstat.init exTableChrom)).df.names ∧
    "neglog_pval" ∉ (Sumstat.neglog_pvalue (Sumstat.init exTableChrom)).columns := by
  refine ⟨(c10_schema_snapshot_invariant exTableChrom (Sumstat.init exTableChrom)).2.2.2.2.1, ?_⟩
  exact (c10_schema_snapshot_invariant exTableChrom (Sumstat.init exTableChrom)).2.2.2.2.2
    (by decide)

/-! ### C9 -/

/-- C9: `Sumstat.neglog_pvalue` adds a `neglog_pval` column computed
per row as `-1 * log10` of the row's `p_value` cell; under the real-number
semantics of cells this value is `-log10(p)`, and in particular a row with
`p_value = 0.01` gets `neglog_pval = 2` and a row with `p_value = 1` gets
`neglog_pval = 0`. -/
theorem c9_neglog_pvalue (s : SumstatState) :
    ((Sumstat.neglog_pvalue s).df.rows =
      s.df.rows.map (fun r => r.updateCell "neglog_pval" (Value.log10Neg (r.cell "p_value")))) ∧
    (∀ q : ℚ, Value.toReal (Value.neglog q) = -(Real.logb 10 (q : ℝ))) ∧
    Value.toReal (Value.log10Neg (Value.rat (1 / 100))) = 2 ∧
    Value.toReal (Value.log10Neg (Value.rat 1)) = 0 := by
  refine ⟨rfl, fun q => rfl, ?_, ?_⟩
  · show -(Real.logb 10 (((1 : ℚ) / 100 : ℚ) : ℝ)) = 2
    have h1 : (((1 : ℚ) / 100 : ℚ) : ℝ) = ((100 : ℝ))⁻¹ := by norm_num
    have h2 : (100 : ℝ) = (10 : ℝ) ^ (2 : ℕ) := by norm_num
    rw [h1, Real.logb_inv, h2, Real.logb_pow, Real.logb_self_eq_one (by norm_num)]
    norm_num
  · show -(Real.logb 10 (((1 : ℚ) : ℚ) : ℝ)) = 0
    have h1 : (((1 : ℚ) : ℚ) : ℝ) = (1 : ℝ) := by norm_num
    rw [h1, Real.logb_one, neg_zero]

/-! ### C8 -/

/-- C8 (amended): `find_study` is not a side-effect-free pure read on the
index object — it narrows the object in place by reassigning `self.df` to
the filtered view.  The reassigned frame is a new value (row filtering, the
schema untouched; the previously loaded frame value is not edited), the
state returned by `find_sumstat` is exactly the `find_study`-narrowed
state, and repeated `find_study` calls compound their filters on the same
object. -/
theorem c8_find_study_mutates_index (s : StudyIndexState) (a b : String) :
    ((StudyIndex.find_study s a).df.schema = s.df.schema ∧
      (StudyIndex.find_study s a).df.rows =
        s.df.rows.filter (fun r => decide (r.cell ACCESSION_ID = Value.str a))) ∧
    (StudyIndex.find_sumstat s a).2 = StudyIndex.find_study s a ∧
    (StudyIndex.find_study (StudyIndex.find_study s a) b).df.rows =
      (s.df.rows.filter (fun r => decide (r.cell ACCESSION_ID = Value.str a))).filter
        (fun r => decide (r.cell ACCESSION_ID = Value.str b)) :=
  ⟨⟨rfl, rfl⟩, rfl, rfl⟩

/-- Counterexample to C8 as stated: on a concrete two-study index,
`find_study` (and hence `find_sumstat`) leaves the object in a different
state than before the call — the read has a side effect on the index
object. -/
theorem c8_find_study_not_pure_counterexample :
    StudyIndex.find_study exIndexGood "GCST001" ≠ exIndexGood ∧
    (StudyIndex.find_sumstat exIndexGood "GCST001").2 ≠ exIndexGood := by
  constructor <;> decide

/-! ### C1 -/

/-- C1 (amended): with the location column present in the index schema,
`find_sumstat` returns the location of the *first* matching row whenever at
least one row matches the accession (in particular the unique row's
location when exactly one matches, but with several matches it silently
returns the first rather than failing), and fails with an
`IndexError`-class exception — a subclass of `LookupError` — only when no
row matches. -/
theorem c1_find_sumstat (s : StudyIndexState) (study : String)
    (hcol : SUMSTAT_LOCATION ∈ s.df.names) :
    (s.df.rows.filter (fun r => decide (r.cell ACCESSION_ID = Value.str study)) = [] →
      (StudyIndex.find_sumstat s study).1 = .error .indexError ∧
      PyError.isLookupError .indexError = true) ∧
    (∀ m rest,
      s.df.rows.filter (fun r => decide (r.cell ACCESSION_ID = Value.str study)) = m :: rest →
      (StudyIndex.find_sumstat s study).1 = .ok (m.cell SUMSTAT_LOCATION)) := by
  have hsel : ∃ dt rest, (((StudyIndex.find_study s study).df.select SUMSTAT_LOCATION).schema
      = (SUMSTAT_LOCATION, dt) :: rest) := by
    simp only [Table.names, List.mem_map] at hcol
    obtain ⟨p, hp, hps⟩ := hcol
    have hpf : p ∈ (StudyIndex.find_study s study).df.schema.filter
        (fun q => decide (q.1 = SUMSTAT_LOCATION)) := by
      rw [List.mem_filter]
      exact ⟨hp, by simp [hps]⟩
    rcases hfe : (StudyIndex.find_study s study).df.schema.filter
        (fun q => decide (q.1 = SUMSTAT_LOCATION)) with _ | ⟨hd, tl⟩
    · rw [hfe] at hpf
      cases hpf
    · have hhd : hd ∈ (StudyIndex.find_study s study).df.schema.filter
          (fun q => decide (q.1 = SUMSTAT_LOCATION)) := by
        rw [hfe]
        exact List.mem_cons_self hd tl
      have hhd1 : hd.1 = SUMSTAT_LOCATION := by
        have := (List.mem_filter.mp hhd).2
        simpa using this
      refine ⟨hd.2, tl, ?_⟩
      show (StudyIndex.find_study s study).df.schema.filter
          (fun q => decide (q.1 = SUMSTAT_LOCATION)) = _
      rw [hfe]
      congr 1
      exact Prod.ext hhd1 rfl
  obtain ⟨dt, rest', hsel⟩ := hsel
  constructor
  · intro hnone
    refine ⟨?_, rfl⟩
    show ((StudyIndex.find_study s study).df.select SUMSTAT_LOCATION).item00 = _
    rw [Table.item00, hsel]
    have hrows : ((StudyIndex.find_study s study).df.select SUMSTAT_LOCATION).rows = [] := hnone
    rw [hrows]
  · intro m rest hcons
    show ((StudyIndex.find_study s study).df.select SUMSTAT_LOCATION).item00 = _
    rw [Table.item00, hsel]
    have hrows : ((StudyIndex.find_study s study).df.select SUMSTAT_LOCATION).rows
        = m :: rest := hcons
    rw [hrows]

/-- Counterexample to C1 as stated: on a concrete index in which the
accession `GCST001` matches two rows, `find_sumstat` does not fail — it
returns the first matching row's location `L1`. -/
theorem c1_duplicate_accession_counterexample :
    (exIndexDup.df.rows.filter
      (fun r => decide (r.cell ACCESSION_ID = Value.str "GCST001"))).length = 2 ∧
    (StudyIndex.find_sumstat exIndexDup "GCST001").1 = .ok (Value.str "L1") := by
  exact ⟨by decide, rfl⟩

/-- Witness for C1 at a concrete index: the unique match is returned, a
missing accession raises the `LookupError`-class `IndexError`. -/
theorem c1_find_sumstat_witness :
    (StudyIndex.find_sumstat exIndexGood "GCST001").1 =
      .ok (Value.str "https://host/path/to/GCST001") ∧
    (StudyIndex.find_sumstat exIndexGood "GCST999").1 = .error .indexError := by
  constructor
  · exact (c1_find_sumstat exIndexGood "GCST001" (by decide)).2
      [(ACCESSION_ID, Value.str "GCST001"),
       (SUMSTAT_LOCATION, Value.str "https://host/path/to/GCST001")] []
      (by decide)
  · exact ((c1_find_sumstat exIndexGood "GCST999" (by decide)).1 (by decide)).1

/-! ### Cache helper lemmas -/

theorem FS.lookup_mkdir (fs : FS) (d p : String) : (fs.mkdir d).lookup p = fs.lookup p := by
  unfold FS.mkdir
  split <;> rfl

theorem FS.lookup_write_self (fs : FS) (p : String) (t : Table) :
    (fs.write p t).lookup p = some t := by
  simp [FS.write, FS.lookup, List.find?]

theorem FS.dirs_write (fs : FS) (p : String) (t : Table) :
    (fs.write p t).dirs = fs.dirs := rfl

theorem FS.mem_dirs_mkdir (fs : FS) (d : String) : d ∈ (fs.mkdir d).dirs := by
  unfold FS.mkdir
  split
  · next h => simpa using h
  · exact List.mem_cons_self d fs.dirs

theorem FS.mkdir_eq_self_of_mem (fs : FS) (d : String) (h : d ∈ fs.dirs) :
    fs.mkdir d = fs := by
  unfold FS.mkdir
  rw [if_pos (by simpa using h)]

/-- A call of `cache_sumstat` with any fuel left, on a state whose cache
file exists, returns the stored table through the load-from-disk branch
with zero network operations. -/
theorem cache_sumstat_hit (fuel : ℕ) (net : Network) (fs : FS) (uri : ParseResult)
    (tmp study : String) (t : Table)
    (h : (fs.mkdir tmp).lookup (tmp ++ "/" ++ study ++ ".parquet") = some t) :
    cache_sumstat (fuel + 1) net fs uri tmp study = .ok (fs.mkdir tmp, 0, t) := by
  simp only [cache_sumstat, h]

/-- Any successful return of `cache_sumstat` hands back a filesystem in
which the cache file holds exactly the returned table, with the cache root
directory created, after at most one listing and one download. -/
theorem cache_sumstat_ok_lookup (fuel : ℕ) (net : Network) (fs : FS) (uri : ParseResult)
    (tmp study : String) (fs2 : FS) (n : ℕ) (t : Table)
    (hok : cache_sumstat fuel net fs uri tmp study = .ok (fs2, n, t)) :
    fs2.lookup (tmp ++ "/" ++ study ++ ".parquet") = some t ∧ tmp ∈ fs2.dirs ∧ n ≤ 2 := by
  match fuel with
  | 0 => exact absurd hok (by simp [cache_sumstat])
  | fuel + 1 =>
    rcases hl : (fs.mkdir tmp).lookup (tmp ++ "/" ++ study ++ ".parquet") with _ | t0
    · simp only [cache_sumstat, hl] at hok
      rcases hone : ((net.nlst uri.netloc (uri.path ++ "/harmonised")).filter
          (fun f => pyEndswith f ".h.tsv.gz")).length == 1 with _ | _
      · rw [if_neg (by simpa using hone)] at hok
        cases hok
      · rw [if_pos (by simpa using hone)] at hok
        match fuel with
        | 0 => simp [cache_sumstat] at hok
        | fuel + 1 =>
          rw [cache_sumstat_hit fuel net _ uri tmp study _ (by
            rw [FS.mkdir_eq_self_of_mem _ _ (by
              rw [FS.dirs_write]
              exact FS.mem_dirs_mkdir fs tmp)]
            exact FS.lookup_write_self _ _ _)] at hok
          injection hok with hok
          rw [Prod.mk.injEq, Prod.mk.injEq] at hok
          obtain ⟨hfs, hn, ht⟩ := hok
          subst hfs
          subst hn
          subst ht
          rw [FS.mkdir_eq_self_of_mem _ _ (by
            rw [FS.dirs_write]
            exact FS.mem_dirs_mkdir fs tmp)]
          refine ⟨FS.lookup_write_self _ _ _, ?_, by omega⟩
          rw [FS.dirs_write]
          exact FS.mem_dirs_mkdir fs tmp
    · rw [cache_sumstat_hit fuel net fs uri tmp study t0 hl] at hok
      injection hok with hok
      rw [Prod.mk.injEq, Prod.mk.injEq] at hok
      obtain ⟨hfs, hn, ht⟩ := hok
      subst hfs
      subst hn
      subst ht
      exact ⟨hl, FS.mem_dirs_mkdir fs tmp, by omega⟩

theorem cache_sumstat_eval_two (g : ℕ) (net : Network) (fs : FS) (uri : ParseResult)
    (tmp study : String) :
    cache_sumstat (g + 2) net fs uri tmp study = cacheTwoResult net fs uri tmp study := by
  unfold cacheTwoResult
  rcases hl : (fs.mkdir tmp).lookup (tmp ++ "/" ++ study ++ ".parquet") with _ | t0
  · simp only [cache_sumstat, hl]
    by_cases hone : ((net.nlst uri.netloc (uri.path ++ "/harmonised")).filter
        (fun f => pyEndswith f ".h.tsv.gz")).length = 1
    · have hself : ∀ D : Table, (((fs.mkdir tmp).write (tmp ++ "/" ++ study ++ ".parquet") D).mkdir tmp) =
          ((fs.mkdir tmp).write (tmp ++ "/" ++ study ++ ".parquet") D) := fun D =>
        FS.mkdir_eq_self_of_mem _ _ (by
          rw [FS.dirs_write]
          exact FS.mem_dirs_mkdir fs tmp)
      have hwl : ∀ D : Table, ((((fs.mkdir tmp).write (tmp ++ "/" ++ study ++ ".parquet") D).mkdir tmp).lookup
          (tmp ++ "/" ++ study ++ ".parquet")) = some D := fun D => by
        rw [hself]
        exact FS.lookup_write_self _ _ _
      simp only [hone, eq_self_iff_true, if_true, hwl, hself, FS.lookup_write_self,
        Nat.zero_add]
    · rw [if_neg hone, if_neg hone]
  · simp only [cache_sumstat, hl]

/-! ### C2 -/

/-- C2: caching is idempotent.  If the deterministic cache file
`<cache_root>/<study>.parquet` already exists, `cache_sumstat` returns the
stored table with zero network operations (only the idempotent `mkdir`
touches the filesystem); consequently, after any successful call the
repeated call performs no network I/O and returns the very same table. -/
theorem c2_cache_idempotent (fuel : ℕ) (net : Network) (fs : FS) (uri : ParseResult)
    (tmp study : String) (t : Table) :
    (fs.lookup (tmp ++ "/" ++ study ++ ".parquet") = some t →
      cache_sumstat (fuel + 1) net fs uri tmp study = .ok (fs.mkdir tmp, 0, t)) ∧
    (∀ fs1 n1 t1, cache_sumstat (fuel + 2) net fs uri tmp study = .ok (fs1, n1, t1) →
      cache_sumstat (fuel + 2) net fs1 uri tmp study = .ok (fs1, 0, t1)) := by
  constructor
  · intro h
    exact cache_sumstat_hit fuel net fs uri tmp study t (by
      rw [FS.lookup_mkdir]
      exact h)
  · intro fs1 n1 t1 hok
    obtain ⟨hl, hd, _⟩ := cache_sumstat_ok_lookup _ _ _ _ _ _ _ _ _ hok
    have hh := cache_sumstat_hit (fuel + 1) net fs1 uri tmp study t1 (by
      rw [FS.mkdir_eq_self_of_mem _ _ hd]
      exact hl)
    rw [FS.mkdir_eq_self_of_mem _ _ hd] at hh
    exact hh

/-- Witness for C2: on a concrete server and empty filesystem, the first
call performs two network operations and caches the table; the second call
(applied through the theorem) performs zero network operations and returns
the row-for-row identical table; a call on the pre-cached filesystem also
loads directly from disk. -/
theorem c2_cache_idempotent_witness :
    cache_sumstat 2 exNet exFS ⟨"ftp", "host", "/path/to"⟩ "/tmp/catalog/sumstat" "GCST001" =
      .ok (exFSCached, 2, exTableChrom) ∧
    cache_sumstat 2 exNet exFSCached ⟨"ftp", "host", "/path/to"⟩ "/tmp/catalog/sumstat" "GCST001" =
      .ok (exFSCached, 0, exTableChrom) ∧
    cache_sumstat 1 exNet exFSCached ⟨"ftp", "host", "/path/to"⟩ "/tmp/catalog/sumstat" "GCST001" =
      .ok (exFSCached, 0, exTableChrom) := by
  refine ⟨rfl, ?_, ?_⟩
  · exact (c2_cache_idempotent 0 exNet exFS ⟨"ftp", "host", "/path/to"⟩ "/tmp/catalog/sumstat"
      "GCST001" exTableChrom).2 exFSCached 2 exTableChrom rfl
  · exact (c2_cache_idempotent 0 exNet exFSCached ⟨"ftp", "host", "/path/to"⟩
      "/tmp/catalog/sumstat" "GCST001" exTableChrom).1 rfl

/-! ### C3 -/

/-- C3: on a cache miss the remote selection keeps exactly the listed names
ending in `".h.tsv.gz"`, and when the count of those names is not exactly
one the `assert len(files) == 1` fails: the call aborts with an
`AssertionError` carrying the offending count instead of recovering. -/
theorem c3_harmonised_selection_assert (fuel : ℕ) (net : Network) (fs : FS)
    (uri : ParseResult) (tmp study : String)
    (hmiss : (fs.mkdir tmp).lookup (tmp ++ "/" ++ study ++ ".parquet") = none) :
    (∀ f, f ∈ (net.nlst uri.netloc (uri.path ++ "/harmonised")).filter
        (fun g => pyEndswith g ".h.tsv.gz") ↔
      f ∈ net.nlst uri.netloc (uri.path ++ "/harmonised") ∧
        pyEndswith f ".h.tsv.gz" = true) ∧
    (((net.nlst uri.netloc (uri.path ++ "/harmonised")).filter
        (fun g => pyEndswith g ".h.tsv.gz")).length ≠ 1 →
      cache_sumstat (fuel + 1) net fs uri tmp study =
        .error (.assertionError (((net.nlst uri.netloc (uri.path ++ "/harmonised")).filter
          (fun g => pyEndswith g ".h.tsv.gz")).length))) := by
  refine ⟨fun f => List.mem_filter, fun hne => ?_⟩
  simp only [cache_sumstat, hmiss]
  rw [if_neg hne]

/-- Witness for C3: a server listing no harmonized file aborts with
`AssertionError` carrying the count 0. -/
theorem c3_harmonised_selection_assert_witness :
    cache_sumstat 1 exNetEmpty exFS ⟨"ftp", "host", "/p"⟩ "/tmp/catalog/sumstat" "GCST001" =
      .error (.assertionError 0) := by
  exact (c3_harmonised_selection_assert 0 exNetEmpty exFS ⟨"ftp", "host", "/p"⟩
    "/tmp/catalog/sumstat" "GCST001" rfl).2 (by decide)

/-! ### C6 -/

/-- C6: the self-recursion of `cache_sumstat` terminates with depth at most
two — from fuel 2 upward the result no longer depends on the fuel and is
never the out-of-fuel marker — and every successful return goes through the
load-from-disk branch: the returned table is exactly what the returned
filesystem stores at the deterministic cache path, with at most one
listing and one download performed. -/
theorem c6_cache_recursion_depth (fuel : ℕ) (net : Network) (fs : FS) (uri : ParseResult)
    (tmp study : String) :
    cache_sumstat (fuel + 2) net fs uri tmp study = cache_sumstat 2 net fs uri tmp study ∧
    cache_sumstat 2 net fs uri tmp study ≠ .error .outOfFuel ∧
    (∀ fs2 n t, cache_sumstat (fuel + 2) net fs uri tmp study = .ok (fs2, n, t) →
      fs2.lookup (tmp ++ "/" ++ study ++ ".parquet") = some t ∧ n ≤ 2) := by
  refine ⟨(cache_sumstat_eval_two fuel net fs uri tmp study).trans
      (cache_sumstat_eval_two 0 net fs uri tmp study).symm, ?_,
    fun fs2 n t hok => ?_⟩
  · rw [show (2 : ℕ) = 0 + 2 from rfl, cache_sumstat_eval_two]
    unfold cacheTwoResult
    rcases hl2 : (fs.mkdir tmp).lookup (tmp ++ "/" ++ study ++ ".parquet") with _ | t0
    · by_cases hone : ((net.nlst uri.netloc (uri.path ++ "/harmonised")).filter
          (fun f => pyEndswith f ".h.tsv.gz")).length = 1
      · simp [hl2, hone]
      · simp [hl2, hone]
    · simp [hl2]
  · obtain ⟨h1, _, h3⟩ := cache_sumstat_ok_lookup _ _ _ _ _ _ _ _ _ hok
    exact ⟨h1, h3⟩

/-- Witness for C6 at concrete inputs: with fuel 2 the added fuel is not
consumed, and the successful fetch returns the table stored at the cache
path after two network operations. -/
theorem c6_cache_recursion_depth_witness :
    cache_sumstat 3 exNet exFS ⟨"ftp", "host", "/path/to"⟩ "/tmp/catalog/sumstat" "GCST001" =
      cache_sumstat 2 exNet exFS ⟨"ftp", "host", "/path/to"⟩ "/tmp/catalog/sumstat" "GCST001" ∧
    exFSCached.lookup "/tmp/catalog/sumstat/GCST001.parquet" = some exTableChrom ∧ (2 : ℕ) ≤ 2 := by
  refine ⟨(c6_cache_recursion_depth 1 exNet exFS ⟨"ftp", "host", "/path/to"⟩
    "/tmp/catalog/sumstat" "GCST001").1, ?_⟩
  exact (c6_cache_recursion_depth 1 exNet exFS ⟨"ftp", "host", "/path/to"⟩
    "/tmp/catalog/sumstat" "GCST001").2.2 exFSCached 2 exTableChrom rfl

/-! ### C7 -/

/-- C7: when a table has both a `chromosome` column and the harmonized
pair, the two `if` blocks of `Sumstat.sort` run in sequence — the
chromosome branch sorts first (string or numeric variant according to the
construction-time dtype), then the harmonized branch re-sorts its output —
and the final row order is the later sort's: ascending `(hm_chrom,
hm_pos)`, a permutation of the chromosome-branch output. -/
theorem c7_sort_both_branches (s : SumstatState)
    (hc : s.columns.contains "chromosome" = true)
    (hh : s.columns.contains "hm_chrom" = true) :
    Sumstat.sort s = Sumstat.sortHmBranch (Sumstat.sortChromosomeBranch s) ∧
    ((Sumstat.sortChromosomeBranch s).df.rows =
      if s.dtypes.getD (s.columns.indexOf "chromosome") DType.int64 = DType.string then
        List.insertionSort (rowLe "order" "position")
          (s.df.rows.map (fun r => r.updateCell "order" (map_chromosomes (r.cell "chromosome"))))
      else
        List.insertionSort (rowLe "chromosome" "base_pair_location") s.df.rows) ∧
    (Sumstat.sort s).df.rows =
      List.insertionSort (rowLe "hm_chrom" "hm_pos") (Sumstat.sortChromosomeBranch s).df.rows ∧
    List.Sorted (rowLe "hm_chrom" "hm_pos") (Sumstat.sort s).df.rows ∧
    (Sumstat.sort s).df.rows.Perm (Sumstat.sortChromosomeBranch s).df.rows := by
  have hhm : Sumstat.sort s = { Sumstat.sortChromosomeBranch s with
      df := (Sumstat.sortChromosomeBranch s).df.sortBy2 "hm_chrom" "hm_pos" } := by
    unfold Sumstat.sort Sumstat.sortHmBranch
    rw [if_pos (by rw [Sumstat.columns_sortChromosomeBranch]; exact hh)]
  refine ⟨rfl, ?_, ?_, ?_, ?_⟩
  · unfold Sumstat.sortChromosomeBranch
    rw [if_pos hc]
    split
    · rfl
    · rfl
  · rw [hhm]
    rfl
  · rw [hhm]
    exact List.sorted_insertionSort (rowLe "hm_chrom" "hm_pos") _
  · rw [hhm]
    exact List.perm_insertionSort (rowLe "hm_chrom" "hm_pos") _

/-- Witness for C7 on a concrete table with opposed chromosome and
harmonized orders: the final rows are sorted by the harmonized pair and
permute the chromosome-branch output. -/
theorem c7_sort_both_branches_witness :
    List.Sorted (rowLe "hm_chrom" "hm_pos") (Sumstat.sort (Sumstat.init exTableHm)).df.rows ∧
    (Sumstat.sort (Sumstat.init exTableHm)).df.rows.Perm
      (Sumstat.sortChromosomeBranch (Sumstat.init exTableHm)).df.rows := by
  refine ⟨(c7_sort_both_branches (Sumstat.init exTableHm) (by decide) (by decide)).2.2.2.1, ?_⟩
  exact (c7_sort_both_branches (Sumstat.init exTableHm) (by decide) (by decide)).2.2.2.2

/-! ### C4 -/

theorem map_chromosomes_of_mem :
    ∀ c ∈ chromosomes, map_chromosomes (Value.str c) = Value.int ((chromRank c : ℕ) : ℤ) := by
  decide

/-- C4 (amended): for every table whose string-typed `chromosome` column
holds only labels from the fixed 25-symbol list *and which has no
`hm_chrom` column* (otherwise the harmonized branch re-sorts afterwards,
see the counterexample), `sort()` returns a permutation of the rows —
projected to their `(chromosome, position)` cells — arranged by chromosome
rank 1,...,22,X,Y,MT and by ascending position within each chromosome. -/
theorem c4_sort_chromosome_order (t : Table)
    (hc : t.names.contains "chromosome" = true)
    (hd : t.dtypes.getD (t.names.indexOf "chromosome") DType.int64 = DType.string)
    (hhm : t.names.contains "hm_chrom" = false)
    (hrows : ∀ r ∈ t.rows, r.cell "chromosome" ∈ chromosomes.map Value.str) :
    List.Pairwise c4Ordered (Sumstat.sort (Sumstat.init t)).df.rows ∧
    ((Sumstat.sort (Sumstat.init t)).df.rows.map
        (fun r => (r.cell "chromosome", r.cell "position"))).Perm
      (t.rows.map (fun r => (r.cell "chromosome", r.cell "position"))) := by
  have hrows2 : Sumstat.sort (Sumstat.init t) = Sumstat.sortChromosomeBranch (Sumstat.init t) := by
    unfold Sumstat.sort Sumstat.sortHmBranch
    rw [if_neg (by
      rw [Sumstat.columns_sortChromosomeBranch]
      show ¬(t.names.contains "hm_chrom" = true)
      rw [hhm]
      simp)]
  have hbr : (Sumstat.sortChromosomeBranch (Sumstat.init t)).df.rows =
      List.insertionSort (rowLe "order" "position")
        (t.rows.map (fun r => r.updateCell "order" (map_chromosomes (r.cell "chromosome")))) := by
    unfold Sumstat.sortChromosomeBranch
    simp only [Sumstat.init]
    rw [if_pos hc, if_pos hd]
    rfl
  have hmemP : ∀ r2 ∈ (Sumstat.sort (Sumstat.init t)).df.rows, ∃ c, c ∈ chromosomes ∧
      r2.cell "chromosome" = Value.str c ∧ r2.cell "position" =
        ((r2.cell "chromosome", r2.cell "position")).2 ∧
      r2.cell "order" = Value.int ((chromRank c : ℕ) : ℤ) := by
    intro r2 hr2
    rw [hrows2, hbr] at hr2
    have hr2' := (List.perm_insertionSort (rowLe "order" "position") _).mem_iff.mp hr2
    obtain ⟨r, hr, rfl⟩ := List.mem_map.mp hr2'
    obtain ⟨c, hcmem, hcell⟩ := List.mem_map.mp (hrows r hr)
    refine ⟨c, hcmem, ?_, rfl, ?_⟩
    · rw [Row.cell_updateCell_ne r _ (by decide), ← hcell]
    · rw [Row.cell_updateCell_self, ← hcell, map_chromosomes_of_mem c hcmem]
  constructor
  · have hsorted : List.Sorted (rowLe "order" "position")
        (Sumstat.sort (Sumstat.init t)).df.rows := by
      rw [hrows2, hbr]
      exact List.sorted_insertionSort (rowLe "order" "position") _
    refine List.Pairwise.imp_of_mem ?_ hsorted
    intro r1 r2 h1 h2 hle
    obtain ⟨c1, hc1, hcell1, _, hord1⟩ := hmemP r1 h1
    obtain ⟨c2, hc2, hcell2, _, hord2⟩ := hmemP r2 h2
    have hlab1 : chromLabel r1 = c1 := by rw [chromLabel, hcell1]
    have hlab2 : chromLabel r2 = c2 := by rw [chromLabel, hcell2]
    rw [rowLe, rowKey, rowKey, Prod.Lex.le_iff] at hle
    rcases hle with hlt | ⟨heq, hple⟩
    · left
      rw [hlab1, hlab2]
      rw [hord1, hord2, Value.int_lt_int] at hlt
      exact_mod_cast hlt
    · right
      refine ⟨?_, hple⟩
      rw [hlab1, hlab2]
      rw [hord1, hord2] at heq
      have := Value.int.inj heq
      exact_mod_cast this
  · rw [hrows2, hbr]
    have hperm := (List.perm_insertionSort (rowLe "order" "position")
      (t.rows.map (fun r => r.updateCell "order" (map_chromosomes (r.cell "chromosome"))))).map
      (fun r => (r.cell "chromosome", r.cell "position"))
    refine hperm.trans ?_
    rw [List.map_map]
    refine List.Perm.of_eq (List.map_congr_left ?_)
    intro r _
    show ((r.updateCell "order" _).cell "chromosome", (r.updateCell "order" _).cell "position") = _
    rw [Row.cell_updateCell_ne r _ (by decide), Row.cell_updateCell_ne r _ (by decide)]

/-- Witness for C4 on a concrete table (labels X, 2, 2, 10 with positions
out of order, no harmonized columns). -/
theorem c4_sort_chromosome_order_witness :
    List.Pairwise c4Ordered (Sumstat.sort (Sumstat.init exTableChrom)).df.rows ∧
    ((Sumstat.sort (Sumstat.init exTableChrom)).df.rows.map
        (fun r => (r.cell "chromosome", r.cell "position"))).Perm
      (exTableChrom.rows.map (fun r => (r.cell "chromosome", r.cell "position"))) :=
  c4_sort_chromosome_order exTableChrom (by decide) (by decide) (by decide) (by decide)

/-- Counterexample to C4 as stated: `exTableHm` has a string `chromosome`
column drawn from the fixed label list, yet `sort()` returns its rows with
chromosome "2" before chromosome "1", because the table also carries the
harmonized pair and the second sort overrides the chromosome order. -/
theorem c4_hm_chrom_counterexample :
    (∀ r ∈ exTableHm.rows, r.cell "chromosome" ∈ chromosomes.map Value.str) ∧
    exTableHm.names.contains "chromosome" = true ∧
    exTableHm.dtypes.getD (exTableHm.names.indexOf "chromosome") DType.int64 = DType.string ∧
    (Sumstat.sort (Sumstat.init exTableHm)).df.rows.map chromLabel = ["2", "1"] ∧
    ¬ List.Pairwise c4Ordered (Sumstat.sort (Sumstat.init exTableHm)).df.rows := by
  refine ⟨by decide, by decide, by decide, by decide, by decide⟩

/-! ### C5: string-rewrite lemmas -/

theorem pyReplaceAux_cons (p : Char) (ps rep : List Char) (c : Char) (cs : List Char) :
    pyReplaceAux p ps rep (c :: cs) =
      if pyIsPrefixOf (p :: ps) (c :: cs) then
        rep ++ pyReplaceAux p ps rep (cs.drop ps.length)
      else
        c :: pyReplaceAux p ps rep cs := by
  rw [pyReplaceAux]

/-- A pattern that occurs nowhere in the string is not replaced. -/
theorem pyReplaceAux_of_no_occurrence (p : Char) (ps rep : List Char) :
    ∀ (n : ℕ) (s : List Char), s.length ≤ n → ¬((p :: ps) <:+: s) →
      pyReplaceAux p ps rep s = s := by
  intro n
  induction n with
  | zero =>
    intro s hs _
    have hnil : s = [] := List.eq_nil_of_length_eq_zero (Nat.le_zero.mp hs)
    subst hnil
    rw [pyReplaceAux]
  | succ n ih =>
    intro s hs hinf
    match s with
    | [] => rw [pyReplaceAux]
    | c :: cs =>
      rw [pyReplaceAux_cons,
        if_neg (fun hpre => hinf (List.IsPrefix.isInfix (pyIsPrefixOf_iff.mp hpre)))]
      congr 1
      exact ih cs (by simp at hs; omega)
        (fun h => hinf (h.trans (List.suffix_cons c cs).isInfix))

/-- Replacement consumes the pattern when it matches at the head. -/
theorem pyReplaceAux_head_match (p : Char) (ps rep t : List Char) :
    pyReplaceAux p ps rep ((p :: ps) ++ t) = rep ++ pyReplaceAux p ps rep t := by
  rw [List.cons_append, pyReplaceAux_cons,
    if_pos (pyIsPrefixOf_iff.mpr (by rw [← List.cons_append]; exact List.prefix_append _ t))]
  rw [List.drop_left]

/-- Replacement of an `h`-headed pattern passes over `"://"` untouched and
leaves a pattern-free tail unchanged. -/
theorem pyReplaceAux_sep (ps rep : List Char) (r : List Char)
    (hne : ¬(('h' :: ps) <:+: r)) :
    pyReplaceAux 'h' ps rep (':' :: '/' :: '/' :: r) = ':' :: '/' :: '/' :: r := by
  rw [pyReplaceAux_cons, if_neg (by simp [pyIsPrefixOf, show ('h' == ':') = false from rfl]),
    pyReplaceAux_cons, if_neg (by simp [pyIsPrefixOf, show ('h' == '/') = false from rfl]),
    pyReplaceAux_cons, if_neg (by simp [pyIsPrefixOf, show ('h' == '/') = false from rfl]),
    pyReplaceAux_of_no_occurrence 'h' ps rep r.length r le_rfl hne]

/-- The double substitution applied to an `http` URI whose remainder does
not contain `"http"`: only the scheme is rewritten. -/
theorem pyReplace_http_uri (r : String) (h : ¬("http".data <:+: r.data)) :
    pyReplace (pyReplace ("http://" ++ r) "https" "ftp") "http" "ftp" = "ftp://" ++ r := by
  have hs : ¬("https".data <:+: r.data) := fun hh =>
    h ((List.IsPrefix.isInfix (by decide)).trans hh)
  have h1 : pyReplace ("http://" ++ r) "https" "ftp" = "http://" ++ r := by
    show String.mk (pyReplaceAux 'h' ['t', 't', 'p', 's'] ['f', 't', 'p']
      ('h' :: 't' :: 't' :: 'p' :: ':' :: '/' :: '/' :: r.data)) = "http://" ++ r
    rw [pyReplaceAux_cons, if_neg (by simp [pyIsPrefixOf, show ('s' == ':') = false from rfl]),
      pyReplaceAux_cons, if_neg (by simp [pyIsPrefixOf, show ('h' == 't') = false from rfl]),
      pyReplaceAux_cons, if_neg (by simp [pyIsPrefixOf, show ('h' == 't') = false from rfl]),
      pyReplaceAux_cons, if_neg (by simp [pyIsPrefixOf, show ('h' == 'p') = false from rfl]),
      pyReplaceAux_sep ['t', 't', 'p', 's'] ['f', 't', 'p'] r.data hs]
    rfl
  rw [h1]
  show String.mk (pyReplaceAux 'h' ['t', 't', 'p'] ['f', 't', 'p']
    ('h' :: 't' :: 't' :: 'p' :: ':' :: '/' :: '/' :: r.data)) = "ftp://" ++ r
  rw [show ('h' :: 't' :: 't' :: 'p' :: ':' :: '/' :: '/' :: r.data) =
      ('h' :: ['t', 't', 'p']) ++ (':' :: '/' :: '/' :: r.data) from rfl,
    pyReplaceAux_head_match, pyReplaceAux_sep ['t', 't', 'p'] ['f', 't', 'p'] r.data h]
  rfl

/-- The double substitution applied to an `https` URI whose remainder does
not contain `"http"`: only the scheme is rewritten. -/
theorem pyReplace_https_uri (r : String) (h : ¬("http".data <:+: r.data)) :
    pyReplace (pyReplace ("https://" ++ r) "https" "ftp") "http" "ftp" = "ftp://" ++ r := by
  have hs : ¬("https".data <:+: r.data) := fun hh =>
    h ((List.IsPrefix.isInfix (by decide)).trans hh)
  have h1 : pyReplace ("https://" ++ r) "https" "ftp" = "ftp://" ++ r := by
    show String.mk (pyReplaceAux 'h' ['t', 't', 'p', 's'] ['f', 't', 'p']
      ('h' :: 't' :: 't' :: 'p' :: 's' :: ':' :: '/' :: '/' :: r.data)) = "ftp://" ++ r
    rw [show ('h' :: 't' :: 't' :: 'p' :: 's' :: ':' :: '/' :: '/' :: r.data) =
        ('h' :: ['t', 't', 'p', 's']) ++ (':' :: '/' :: '/' :: r.data) from rfl,
      pyReplaceAux_head_match, pyReplaceAux_sep ['t', 't', 'p', 's'] ['f', 't', 'p'] r.data hs]
    rfl
  rw [h1]
  show String.mk (pyReplaceAux 'h' ['t', 't', 'p'] ['f', 't', 'p']
    ('f' :: 't' :: 'p' :: ':' :: '/' :: '/' :: r.data)) = "ftp://" ++ r
  rw [pyReplaceAux_cons, if_neg (by simp [pyIsPrefixOf, show ('h' == 'f') = false from rfl]),
    pyReplaceAux_cons, if_neg (by simp [pyIsPrefixOf, show ('h' == 't') = false from rfl]),
    pyReplaceAux_cons, if_neg (by simp [pyIsPrefixOf, show ('h' == 'p') = false from rfl]),
    pyReplaceAux_sep ['t', 't', 'p'] ['f', 't', 'p'] r.data h]
  rfl

/-- C5 (amended): a URI splitting at `"://"` into exactly `http` (or
`https`) plus a remainder is rewritten by substituting every occurrence of
the substrings `"https"`/`"http"` in the whole URI with `"ftp"` and then
fetched; this yields `ftp://<remainder>` — hence the same host and path —
exactly when the remainder does not contain `"http"` as a substring.  A URI
of any other shape (any other scheme, or an http(s) URI with a second
`"://"`) raises `ValueError` instead of fetching. -/
theorem c5_protocol_rewrite (uri r : String) (fuel : ℕ) (net : Network) (fs : FS)
    (path : String) :
    (((uri = "http://" ++ r ∧ pySplit uri "://" = ["http", r]) ∨
      (uri = "https://" ++ r ∧ pySplit uri "://" = ["https", r])) →
      ¬("http".data <:+: r.data) →
      (pyReplace (pyReplace uri "https" "ftp") "http" "ftp" = "ftp://" ++ r ∧
       Sumstat.from_catalog_sumstat fuel net fs uri path =
         fetchParsed fuel net fs (urlparse ("ftp://" ++ r)) path
           ((pySplit uri "/").getLastD ""))) ∧
    ((∀ s2 : String, pySplit uri "://" ≠ ["http", s2] ∧ pySplit uri "://" ≠ ["https", s2]) →
      Sumstat.from_catalog_sumstat fuel net fs uri path = .error .valueError) := by
  constructor
  · rintro (⟨rfl, hsp⟩ | ⟨rfl, hsp⟩) hinf
    · refine ⟨pyReplace_http_uri r hinf, ?_⟩
      unfold Sumstat.from_catalog_sumstat
      rw [hsp, pyReplace_http_uri r hinf]
      rfl
    · refine ⟨pyReplace_https_uri r hinf, ?_⟩
      unfold Sumstat.from_catalog_sumstat
      rw [hsp, pyReplace_https_uri r hinf]
      rfl
  · intro hne
    unfold Sumstat.from_catalog_sumstat
    dsimp only
    split
    · next s2 heq => exact absurd heq (hne s2).1
    · next s2 heq => exact absurd heq (hne s2).2
    · rfl

/-- Counterexample to C5 as stated: for the http URI with host
`httpbin.org`, the global substitution also rewrites the host, and the
program fetches from host `ftpbin.org` — not the same host as the URI's. -/
theorem c5_host_rewrite_counterexample :
    (urlparse "http://httpbin.org/data").netloc = "httpbin.org" ∧
    pyReplace (pyReplace "http://httpbin.org/data" "https" "ftp") "http" "ftp" =
      "ftp://ftpbin.org/data" ∧
    (urlparse (pyReplace (pyReplace "http://httpbin.org/data" "https" "ftp")
      "http" "ftp")).netloc = "ftpbin.org" ∧
    Sumstat.from_catalog_sumstat 2 exNet exFS "http://httpbin.org/data" "/tmp/catalog/sumstat" =
      fetchParsed 2 exNet exFS ⟨"ftp", "ftpbin.org", "/data"⟩ "/tmp/catalog/sumstat" "data" ∧
    ("ftpbin.org" : String) ≠ "httpbin.org" := by
  refine ⟨?_, ?_, ?_, ?_, by decide⟩
  · simp +decide [urlparse, pySplit, pySplitAux, pyIsPrefixOf, String.intercalate,
      String.intercalate.go]
  · simp +decide [pyReplace, pyReplaceAux, pyIsPrefixOf]
  · simp +decide [urlparse, pySplit, pySplitAux, pyIsPrefixOf, String.intercalate,
      String.intercalate.go, pyReplace, pyReplaceAux]
  · unfold Sumstat.from_catalog_sumstat
    have hsp : pySplit "http://httpbin.org/data" "://" = ["http", "httpbin.org/data"] := by
      simp +decide [pySplit, pySplitAux, pyIsPrefixOf]
    have hrw : pyReplace (pyReplace "http://httpbin.org/data" "https" "ftp") "http" "ftp" =
        "ftp://ftpbin.org/data" := by
      simp +decide [pyReplace, pyReplaceAux, pyIsPrefixOf]
    have hup : urlparse "ftp://ftpbin.org/data" =
        ⟨"ftp", "ftpbin.org", "/data"⟩ := by
      simp +decide [urlparse, pySplit, pySplitAux, pyIsPrefixOf, String.intercalate,
        String.intercalate.go]
    have hst : (pySplit "http://httpbin.org/data" "/").getLastD "" = "data" := by
      simp +decide [pySplit, pySplitAux, pyIsPrefixOf]
    rw [hsp, hrw, hup, hst]
    rfl

/-- Witness for C5: an http URI whose remainder is free of `"http"` is
rewritten to the ftp URI with identical remainder and dispatched to the
fetcher; a non-http(s) URI raises `ValueError`. -/
theorem c5_protocol_rewrite_witness :
    pyReplace (pyReplace "http://example.org/stats/GCST90012345" "https" "ftp") "http" "ftp" =
      "ftp://example.org/stats/GCST90012345" ∧
    Sumstat.from_catalog_sumstat 2 exNet exFS "http://example.org/stats/GCST90012345"
        "/tmp/catalog/sumstat" =
      fetchParsed 2 exNet exFS (urlparse "ftp://example.org/stats/GCST90012345")
        "/tmp/catalog/sumstat"
        ((pySplit "http://example.org/stats/GCST90012345" "/").getLastD "") ∧
    Sumstat.from_catalog_sumstat 2 exNet exFS "ftp://host/x" "/tmp/catalog/sumstat" =
      .error .valueError := by
  have h1 := (c5_protocol_rewrite "http://example.org/stats/GCST90012345"
      "example.org/stats/GCST90012345" 2 exNet exFS "/tmp/catalog/sumstat").1
    (Or.inl ⟨rfl, by simp +decide [pySplit, pySplitAux, pyIsPrefixOf]⟩)
    (by decide)
  have hftp : pySplit "ftp://host/x" "://" = ["ftp", "host/x"] := by
    simp +decide [pySplit, pySplitAux, pyIsPrefixOf]
  have h2 := (c5_protocol_rewrite "ftp://host/x" "" 2 exNet exFS "/tmp/catalog/sumstat").2
    (fun s2 => ⟨by rw [hftp]; simp +decide, by rw [hftp]; simp +decide⟩)
  exact ⟨h1.1, h1.2, h2⟩
